import Mathlib

/-!
Verification of the india-export-import ingestion pipeline.

This file gives a shallow embedding of the two subsystems of the repository:
the temporal acquisition loop (`fetch.py`) and the tabular extraction and
cleaning pipeline (`parse.py`), together with theorems settling the stated
properties of the specification against that embedding.

Python strings are modelled as `List Char` so that every string operation is
structurally recursive and kernel-computable.  Machine integers of the data
frames (`Int32`/`Int64`) are modelled as `Int`; no arithmetic in the claims
approaches the overflow boundary.  Library calls that perform I/O (HTTP,
`pd.read_excel`, `zipfile`) are modelled as explicit oracle parameters, so
every embedded function is a total Lean function of its inputs.
-/

/-! ### Embedding of fetch.py -/

/-- Outcome of `requests.get` in `fetch_month_data`: either the transport
layer throws (`requests.exceptions.RequestException` or any other exception),
or an HTTP response with a status code and a byte payload is delivered.
Bytes are modelled as `Nat`. -/
inductive HttpResult where
  | transportError
  | success (status : Nat) (content : List Nat)
deriving DecidableEq

/-- Embeds `fetch_month_data` (fetch.py lines 65-98), the part downstream of
the request.  `zipWellFormed` is the oracle for `zipfile.ZipFile` succeeding
on the payload (raising `BadZipFile` otherwise).  The function returns the
payload exactly when the status is 200, the payload has at least 4 bytes,
its first two bytes are `b'PK'` (80, 75), and the archive opens; every
failure, including a thrown transport error, yields `none`. -/
def fetch_month_data (zipWellFormed : List Nat → Bool) (resp : HttpResult) :
    Option (List Nat) :=
  match resp with
  | .transportError => none
  | .success status content =>
    if status ≠ 200 then none
    else if content.length < 4 then none
    else if content.take 2 ≠ [80, 75] then none
    else if zipWellFormed content then some content else none

/-- State of the crawl loop in `main` (fetch.py lines 113-166): the two
consecutive-failure counters of the dict `consecutive_failures`, the cursor
month `current_date`, and (for the observable request count) how many
network requests have been issued per series. -/
structure CrawlState where
  impFailures : Nat
  expFailures : Nat
  year : Int
  month : Nat
  impRequests : Nat
  expRequests : Nat
deriving DecidableEq

/-- The `max_consecutive_failures` constant of fetch.py (line 124). -/
def max_consecutive_failures : Nat := 5

/-- Backward month arithmetic of the crawl loop (fetch.py lines 156-159). -/
def prevMonth (year : Int) (month : Nat) : Int × Nat :=
  if month = 1 then (year - 1, 12) else (year, month - 1)

/-- One series iteration of the inner `for data_type` loop (fetch.py lines
137-153).  `exist y m isImp` is the oracle for `file_path.exists()`, and
`fetchOk y m isImp` for `fetch_month_data` returning content.  `isImp`
selects the `import` (`true`) or `export` (`false`) series.  An existing
artifact resets the series counter without a request; otherwise a request is
issued, resetting the counter on success and incrementing it on failure. -/
def seriesStep (exist fetchOk : Int → Nat → Bool → Bool) (isImp : Bool)
    (s : CrawlState) : CrawlState :=
  if exist s.year s.month isImp then
    if isImp then { s with impFailures := 0 } else { s with expFailures := 0 }
  else
    if fetchOk s.year s.month isImp then
      if isImp then
        { s with impFailures := 0, impRequests := s.impRequests + 1 }
      else
        { s with expFailures := 0, expRequests := s.expRequests + 1 }
    else
      if isImp then
        { s with impFailures := s.impFailures + 1, impRequests := s.impRequests + 1 }
      else
        { s with expFailures := s.expFailures + 1, expRequests := s.expRequests + 1 }

/-- One full month iteration of the crawl loop body (fetch.py lines
128-164): process the import series, then the export series, then move the
cursor to the previous month. -/
def monthStep (exist fetchOk : Int → Nat → Bool → Bool) (s : CrawlState) :
    CrawlState :=
  let s1 := seriesStep exist fetchOk true s
  let s2 := seriesStep exist fetchOk false s1
  let p := prevMonth s2.year s2.month
  { s2 with year := p.1, month := p.2 }

/-- `crawlIter k` is the state after `k` unconditional month iterations. -/
def crawlIter (exist fetchOk : Int → Nat → Bool → Bool) :
    Nat → CrawlState → CrawlState
  | 0, s => s
  | k + 1, s => crawlIter exist fetchOk k (monthStep exist fetchOk s)

/-- The `while min(consecutive_failures.values()) < max_consecutive_failures`
loop of `main` (fetch.py line 128), with explicit fuel standing for the
unbounded iteration. -/
def crawlLoop (exist fetchOk : Int → Nat → Bool → Bool) :
    Nat → CrawlState → CrawlState
  | 0, s => s
  | fuel + 1, s =>
    if min s.impFailures s.expFailures < max_consecutive_failures then
      crawlLoop exist fetchOk fuel (monthStep exist fetchOk s)
    else s

/-- Oracle of a fetch source that fails on every request, with no
pre-existing artifacts. -/
def oracleNever : Int → Nat → Bool → Bool := fun _ _ _ => false

/-- Oracle under which every (series, year, month) artifact already exists. -/
def oracleAlways : Int → Nat → Bool → Bool := fun _ _ _ => true

/-- A concrete crawl start state: fresh counters, cursor at 2025-09. -/
def startState : CrawlState := ⟨0, 0, 2025, 9, 0, 0⟩

/-- Existence oracle for the skip-reset scenario: the artifact for month
2025-09 pre-exists (for both series), nothing else does. -/
def existsAtStart : Int → Nat → Bool → Bool :=
  fun y m _ => y == 2025 && m == 9

/-! ### Embedding of parse.py: strings and cells -/

/-- Python strings are modelled as lists of characters. -/
abbrev Str := List Char

/-- A spreadsheet cell after `pd.read_excel(..., dtype=str)`: either missing
(`NaN`, also produced by pandas when padding a short physical row to the
sheet's rectangular width) or a text value. -/
abbrev Cell := Option Str

/-- A physical sheet row. -/
abbrev Row := List Cell

/-- A sheet as read by pandas: the list of its physical rows. -/
abbrev Sheet := List Row

/-- Python `str.upper()`. -/
def toUpperStr (s : Str) : Str := s.map Char.toUpper

/-- Python `str.lower()` / polars `str.to_lowercase()`. -/
def toLowerStr (s : Str) : Str := s.map Char.toLower

/-- Python `str.strip()` / polars `str.strip_chars()`: remove leading and
trailing whitespace. -/
def stripStr (s : Str) : Str :=
  ((s.dropWhile Char.isWhitespace).reverse.dropWhile Char.isWhitespace).reverse

/-- Boolean list-prefix test, auxiliary for the substring test. -/
def isPrefixOfB : Str → Str → Bool
  | [], _ => true
  | _ :: _, [] => false
  | a :: as, b :: bs => a == b && isPrefixOfB as bs

/-- Python `pat in s` on strings: some suffix of `s` starts with `pat`. -/
def containsSub : Str → Str → Bool
  | [], pat => isPrefixOfB pat []
  | a :: t, pat => isPrefixOfB pat (a :: t) || containsSub t pat

/-! ### Embedding of parse.py: schema detection (`find_column_indices`) -/

/-- The `indices` dict built by `find_column_indices` (parse.py lines
37-45): for each canonical field, the chosen zero-based column, `none` if
not found. -/
structure ColIndices where
  commodity : Option Nat
  country : Option Nat
  port : Option Nat
  unit : Option Nat
  qty : Option Nat
  inr : Option Nat
  usd : Option Nat
deriving DecidableEq

/-- The all-`none` initial `indices` dict. -/
def emptyIndices : ColIndices := ⟨none, none, none, none, none, none, none⟩

/-- The header token `COMMODITY`. -/
def tokCOMMODITY : Str := "COMMODITY".data

/-- The header token `COUNTRY`. -/
def tokCOUNTRY : Str := "COUNTRY".data

/-- The header token `PORT`. -/
def tokPORT : Str := "PORT".data

/-- The header token `UNIT`. -/
def tokUNIT : Str := "UNIT".data

/-- The header token `QTY`. -/
def tokQTY : Str := "QTY".data

/-- The header token `INR`. -/
def tokINR : Str := "INR".data

/-- The header token `VALUE(INR)`. -/
def tokVALUEINR : Str := "VALUE(INR)".data

/-- The header token `US $`. -/
def tokUSdollar : Str := "US $".data

/-- The header token `USD`. -/
def tokUSD : Str := "USD".data

/-- The header token `VALUE(US`. -/
def tokVALUEUS : Str := "VALUE(US".data

/-- The body of the `for idx, val in enumerate(header_row)` loop of
`find_column_indices` (parse.py lines 47-65): a non-string cell is skipped;
otherwise the upper-cased text is dispatched through the `elif` chain.  The
first five branches test assignment inside the `elif` condition; the `inr`
and `usd` branches test the substring condition first and the assignment
inside the branch body. -/
def updateIndices (acc : ColIndices) (idx : Nat) (cell : Cell) : ColIndices :=
  match cell with
  | none => acc
  | some v =>
    let u := toUpperStr v
    if containsSub u tokCOMMODITY && acc.commodity == none then
      { acc with commodity := some idx }
    else if containsSub u tokCOUNTRY && acc.country == none then
      { acc with country := some idx }
    else if containsSub u tokPORT && acc.port == none then
      { acc with port := some idx }
    else if u == tokUNIT && acc.unit == none then
      { acc with unit := some idx }
    else if u == tokQTY && acc.qty == none then
      { acc with qty := some idx }
    else if containsSub u tokINR || containsSub u tokVALUEINR then
      (if acc.inr == none then { acc with inr := some idx } else acc)
    else if containsSub u tokUSdollar || containsSub u tokUSD ||
        containsSub u tokVALUEUS then
      (if acc.usd == none then { acc with usd := some idx } else acc)
    else acc

/-- The indexed left-to-right scan of the header row. -/
def scanHeader : Nat → ColIndices → List Cell → ColIndices
  | _, acc, [] => acc
  | idx, acc, c :: rest => scanHeader (idx + 1) (updateIndices acc idx c) rest

/-- Embeds `find_column_indices` (parse.py lines 27-67). -/
def find_column_indices (headerRow : List Cell) : ColIndices :=
  scanHeader 0 emptyIndices headerRow

/-- The seven canonical fields of the column map. -/
inductive TField where
  | commodity | country | port | unit | qty | inr | usd
deriving DecidableEq

/-- Projection of the `indices` dict at a field. -/
def getField (ix : ColIndices) : TField → Option Nat
  | .commodity => ix.commodity
  | .country => ix.country
  | .port => ix.port
  | .unit => ix.unit
  | .qty => ix.qty
  | .inr => ix.inr
  | .usd => ix.usd

/-- The per-field match rule of the specification's table (spec section
4.3), applied to upper-cased cell text; identical to the branch conditions
of `find_column_indices`. -/
def fieldRule : TField → Str → Bool
  | .commodity, u => containsSub u tokCOMMODITY
  | .country, u => containsSub u tokCOUNTRY
  | .port, u => containsSub u tokPORT
  | .unit, u => u == tokUNIT
  | .qty, u => u == tokQTY
  | .inr, u => containsSub u tokINR || containsSub u tokVALUEINR
  | .usd, u => containsSub u tokUSdollar || containsSub u tokUSD ||
      containsSub u tokVALUEUS

/-- A cell satisfies a field's match rule: it is a string cell whose
upper-cased text passes `fieldRule`. -/
def cellMatches (f : TField) (c : Cell) : Bool :=
  match c with
  | none => false
  | some v => fieldRule f (toUpperStr v)

/-- Modelled from the spec's words for comparison (spec section 4.4): the
first (leftmost) column index whose cell text satisfies the field's match
rule, each field considered independently of the others. -/
def specFirstMatch (f : TField) (headerRow : List Cell) : Option Nat :=
  headerRow.findIdx? (cellMatches f)

/-! ### Embedding of parse.py: row normalization and `parse_xls_file` -/

/-- Python `str(cell)` on a `dtype=str` column (`astype(str)`): a missing
value (`NaN`) prints as the text `nan`; a string cell is unchanged. -/
def cellToStr (c : Cell) : Str :=
  match c with
  | none => "nan".data
  | some s => s

/-- The `valid_mask` commodity filter of `parse_xls_file` (parse.py lines
184-189): the stripped commodity text must be non-empty and its upper case
must not be one of the placeholder tokens `COMMODITY`, `NAN`, `NONE`, `''`. -/
def validCommodity (c : Cell) : Bool :=
  let s := stripStr (cellToStr c)
  !(s == []) &&
    !(["COMMODITY".data, "NAN".data, "NONE".data, "".data].contains (toUpperStr s))

/-- Embeds `safe_str_extract` (parse.py lines 198-204): an unmapped column
yields the default for every row; a mapped column is read, converted to
text, stripped, and a value equal to `nan` (the text form of a missing
cell) is replaced by the default.  Reading beyond a row's physical width
yields the missing value `none`, exactly as pandas pads short physical rows
with `NaN` when rectangularizing the sheet. -/
def safe_str_extract (colIdx : Option Nat) (dflt : Str) (r : Row) : Str :=
  match colIdx with
  | none => dflt
  | some i =>
    let s := stripStr (cellToStr (r.getD i none))
    if s == "nan".data then dflt else s

/-- Nat value of a digit run, `none` if a non-digit occurs. -/
def digitsVal : Str → Nat → Option Nat
  | [], acc => some acc
  | c :: rest, acc =>
    if c.isDigit then digitsVal rest (acc * 10 + (c.toNat - 48)) else none

/-- Models `pd.to_numeric(..., errors='coerce')` (parse.py line 72) on
integer-formatted cell text: optional surrounding whitespace, an optional
sign, then a non-empty digit run; any other text coerces to `none`.  The
later `Int64` casts of the pipeline are identities on this model. -/
def parseIntStr (s : Str) : Option Int :=
  match stripStr s with
  | [] => none
  | '-' :: [] => none
  | '-' :: c :: rest => (digitsVal (c :: rest) 0).map (fun n => -(n : Int))
  | '+' :: [] => none
  | '+' :: c :: rest => (digitsVal (c :: rest) 0).map (fun n => (n : Int))
  | c :: rest => (digitsVal (c :: rest) 0).map (fun n => (n : Int))

/-- Embeds `safe_numeric_extract` (parse.py lines 212-216): an unmapped
column yields `none` for every row; otherwise the cell is parsed
permissively, a missing cell or unparseable text yielding `none`. -/
def safe_numeric_extract (colIdx : Option Nat) (r : Row) : Option Int :=
  match colIdx with
  | none => none
  | some i =>
    match r.getD i none with
    | none => none
    | some s => parseIntStr s

/-- The canonical record schema, one row of the result frame built at
parse.py lines 229-240 (column order Commodity, Country, Port, Year, Month,
Type, Quantity, Unit, INR Value, USD Value).  `seriesType` is the `Type`
string column holding `Import` or `Export`; the `unit` column is nullable
in general data frames handed to `clean_data`, though `parse_xls_file`
always fills it. -/
structure RawRecord where
  commodity : Str
  country : Str
  port : Str
  year : Int
  month : Nat
  seriesType : Str
  quantity : Option Int
  unit : Option Str
  inrValue : Option Int
  usdValue : Option Int
deriving DecidableEq

/-- The `'Import' if data_type == 'import' else 'Export'` conversion
(parse.py line 223). -/
def seriesTypeName (data_type : Str) : Str :=
  if data_type == "import".data then "Import".data else "Export".data

/-- Builds one record of the result frame from one valid data row, given
the detected column map whose commodity column is `ci` (parse.py lines
184-240). -/
def rowToRecord (ci : Nat) (ix : ColIndices) (year : Int) (month : Nat)
    (stype : Str) (r : Row) : RawRecord :=
  { commodity := stripStr (cellToStr (r.getD ci none))
    country := safe_str_extract ix.country "".data r
    port := safe_str_extract ix.port "".data r
    year := year
    month := month
    seriesType := stype
    quantity := safe_numeric_extract ix.qty r
    unit := some (safe_str_extract ix.unit "N/A".data r)
    inrValue := safe_numeric_extract ix.inr r
    usdValue := safe_numeric_extract ix.usd r }

/-- Embeds `parse_xls_file` (parse.py lines 97-255).  `readResult` is the
oracle for the guarded `pd.read_excel` calls (lines 111-153): `none` when
reading raises with every engine, in which case the enclosing handler
returns an empty frame; `some sheet` when a sheet is read.  Row 0 is a
title, row 1 the header, rows from index 2 the data.  The column-padding
block of lines 175-181 is unreachable (every detected index is an index of
the header row, hence below the sheet's rectangular width) and is realized
here by reading absent cells as the missing value.  The function returns an
empty result when the sheet has fewer than two physical rows, when the
essential commodity or country column is unresolved, when there are no data
rows, or when no data row passes the commodity filter. -/
def parse_xls_file (readResult : Option Sheet) (year : Int) (month : Nat)
    (data_type : Str) : List RawRecord :=
  match readResult with
  | none => []
  | some sheet =>
    if sheet.length < 2 then []
    else
      let headerRow := sheet.getD 1 []
      let ix := find_column_indices headerRow
      match ix.commodity with
      | none => []
      | some ci =>
        match ix.country with
        | none => []
        | some _ =>
          let dataRows := sheet.drop 2
          if dataRows.isEmpty then []
          else
            let validRows := dataRows.filter (fun r => validCommodity (r.getD ci none))
            if validRows.isEmpty then []
            else validRows.map (rowToRecord ci ix year month (seriesTypeName data_type))

/-! ### Embedding of parse.py: `clean_data` -/

/-- The `fill_null(0) == 0` test of the degeneracy filter. -/
def nullOrZero (v : Option Int) : Bool := v.getD 0 == 0

/-- The degeneracy filter predicate of `clean_data` (parse.py lines
377-382): keep a record unless quantity, INR value and USD value are all
null-or-zero. -/
def nonDegenerate (r : RawRecord) : Bool :=
  !(nullOrZero r.quantity && nullOrZero r.inrValue && nullOrZero r.usdValue)

/-- The unit-normalization expression of `clean_data` (parse.py lines
365-375): a null, blank-after-strip, or lowercase-`nan` unit becomes `N/A`;
anything else is kept. -/
def normalizeUnit (u : Option Str) : Option Str :=
  match u with
  | none => some "N/A".data
  | some s =>
    if stripStr s == [] then some "N/A".data
    else if toLowerStr s == "nan".data then some "N/A".data
    else some s

/-- The `with_columns` pass of `clean_data` (parse.py lines 359-375): the
numeric casts are identities on the typed model; the unit column is
normalized. -/
def normalizeRecord (r : RawRecord) : RawRecord :=
  { r with unit := normalizeUnit r.unit }

/-- The sort key of `clean_data` (parse.py line 385): the lexicographic
tuple (Commodity, Country, Port, Year, Month, Type). -/
abbrev RecordKey :=
  Lex (Str × Lex (Str × Lex (Str × Lex (Int × Lex (Nat × Str)))))

/-- Key extraction for the canonical sort. -/
def recordKey (r : RawRecord) : RecordKey :=
  toLex (r.commodity,
    toLex (r.country,
      toLex (r.port, toLex (r.year, toLex (r.month, r.seriesType)))))

/-- The canonical ordering relation: ascending on the sort key. -/
def keyLe (a b : RawRecord) : Prop := recordKey a ≤ recordKey b

instance : DecidableRel keyLe :=
  fun a b => inferInstanceAs (Decidable (recordKey a ≤ recordKey b))

instance : IsTotal RawRecord keyLe :=
  ⟨fun a b => le_total (recordKey a) (recordKey b)⟩

instance : IsTrans RawRecord keyLe :=
  ⟨fun _ _ _ h₁ h₂ => le_trans h₁ h₂⟩

/-- Embeds `clean_data` (parse.py lines 344-387), in the source's order:
exact-row deduplication (`df.unique()`, whose output order polars leaves
unspecified; modelled by `List.dedup`), the cast/unit-normalization pass,
the degeneracy filter, and the canonical sort (modelled by insertion sort,
a stable comparison sort). -/
def clean_data (df : List RawRecord) : List RawRecord :=
  (((df.dedup).map normalizeRecord).filter nonDegenerate).insertionSort keyLe

/-! ### Concrete inputs used by the verification -/

/-- The header row of the specification's schema-detection test. -/
def demoHeader : List Cell :=
  [some "S.No".data, some "Commodity Name".data,
   some "Country of Destination".data, some "QTY".data, some "Unit".data,
   some "Value(INR)".data, some "Value(US $)".data]

/-- A header row whose first cell satisfies both the commodity rule and the
country rule, exposing the mutually-exclusive dispatch of the `elif`
chain. -/
def clashHeader : List Cell :=
  [some "COMMODITY COUNTRY".data, some "COUNTRY".data]

/-- A two-row sheet whose header resolves a commodity column but no country
column. -/
def noCountrySheet : Sheet := [[], [some "COMMODITY X".data]]

/-- A sheet whose only data row fails the commodity filter (a header-echo
placeholder row). -/
def allInvalidSheet : Sheet :=
  [[], [some "COMMODITY".data, some "COUNTRY".data], [some "commodity".data]]

/-- A record with quantity 0, null INR value, and USD value 0. -/
def recDropped : RawRecord :=
  ⟨"X".data, "".data, "".data, 2021, 11, "Import".data, some 0,
   some "KG".data, none, some 0⟩

/-- A record with quantity 0, INR value 0, and USD value 5. -/
def recKept : RawRecord :=
  ⟨"X".data, "".data, "".data, 2021, 11, "Import".data, some 0,
   some "KG".data, some 0, some 5⟩

/-- A non-degenerate record whose unit is the empty string. -/
def recUnitBlank : RawRecord :=
  ⟨"X".data, "".data, "".data, 2021, 11, "Import".data, some 1,
   some "".data, some 2, some 3⟩

/-- The same record with unit spelled `nan`. -/
def recUnitNan : RawRecord :=
  ⟨"X".data, "".data, "".data, 2021, 11, "Import".data, some 1,
   some "nan".data, some 2, some 3⟩

/-- The common image of the two records above under unit normalization. -/
def recUnitNA : RawRecord :=
  ⟨"X".data, "".data, "".data, 2021, 11, "Import".data, some 1,
   some "N/A".data, some 2, some 3⟩

/-- A record with quantity 1 and an already-normal unit. -/
def recQtyOne : RawRecord :=
  ⟨"X".data, "".data, "".data, 2021, 11, "Import".data, some 1,
   some "KG".data, some 2, some 3⟩

/-- The same record except with quantity 2: it shares the whole sort key
with `recQtyOne` while being a distinct record. -/
def recQtyTwo : RawRecord :=
  ⟨"X".data, "".data, "".data, 2021, 11, "Import".data, some 2,
   some "KG".data, some 2, some 3⟩

/-- A concrete column map used to exercise row normalization: commodity at
0, country at 1, no port column, unit at 9 (beyond the example row's
width), qty at 2, INR unmapped, usd at 3. -/
def demoIx : ColIndices := ⟨some 0, some 1, none, some 9, some 2, none, some 3⟩

/-- A concrete data row whose qty cell holds non-numeric text. -/
def demoRow : Row :=
  [some "X".data, some "USA".data, some "abc".data, some "12".data]

/-! ### Helper lemmas -/

/-- Membership in the cleaned dataset: a record is in the output exactly
when it is a normalized deduplicated input record passing the degeneracy
filter. -/
lemma mem_clean_data {df : List RawRecord} {r : RawRecord} :
    r ∈ clean_data df ↔
      r ∈ df.dedup.map normalizeRecord ∧ nonDegenerate r = true := by
  unfold clean_data
  rw [List.Perm.mem_iff (List.perm_insertionSort _ _), List.mem_filter]

/-! ### C5: fetch validation sequence -/

/-- C5: a fetch returns the payload bytes exactly when the response is a
delivered HTTP response with success status 200 carrying that payload, the
payload has at least 4 bytes, it begins with the zip magic prefix `PK`
(bytes 80, 75), and it opens as a well-formed archive; any validation
failure and any thrown transport error yield `none`, and the embedded fetch
is a total function, so no exception propagates. -/
theorem C5_fetch_validation (zipWF : List Nat → Bool) (resp : HttpResult)
    (c : List Nat) :
    fetch_month_data zipWF resp = some c ↔
      resp = .success 200 c ∧ 4 ≤ c.length ∧ c.take 2 = [80, 75] ∧
        zipWF c = true := by
  cases resp with
  | transportError => simp [fetch_month_data]
  | success status content =>
    simp only [fetch_month_data, Option.some.injEq, HttpResult.success.injEq]
    split_ifs with h1 h2 h3 h4
    · constructor
      · rintro ⟨⟩
      · rintro ⟨⟨rfl, rfl⟩, -⟩
        exact h1 rfl
    · constructor
      · rintro ⟨⟩
      · rintro ⟨⟨rfl, rfl⟩, hlen, -⟩
        omega
    · constructor
      · rintro ⟨⟩
      · rintro ⟨⟨rfl, rfl⟩, -, htake, -⟩
        exact h3 htake
    · constructor
      · rintro ⟨rfl⟩
        refine ⟨⟨?_, rfl⟩, ?_, ?_, h4⟩
        · omega
        · omega
        · exact not_not.mp h3
      · rintro ⟨⟨rfl, rfl⟩, -⟩
        rfl
    · constructor
      · rintro ⟨⟩
      · rintro ⟨⟨rfl, rfl⟩, -, -, hz⟩
        exact absurd hz h4

/-! ### C3: degeneracy filter -/

/-- C3: the degeneracy filter of cleaning discards a record exactly when
its quantity, INR value and USD value are each null or zero; among the
deduplicated normalized records, membership in the cleaned dataset is
equivalent to passing the filter; the spec's dropped example vanishes and
its kept example survives cleaning. -/
theorem C3_degeneracy_filter :
    (∀ r : RawRecord, nonDegenerate r = false ↔
      ((r.quantity = none ∨ r.quantity = some 0) ∧
       (r.inrValue = none ∨ r.inrValue = some 0) ∧
       (r.usdValue = none ∨ r.usdValue = some 0))) ∧
    (∀ (df : List RawRecord) (r : RawRecord),
      r ∈ df.dedup.map normalizeRecord →
      (r ∈ clean_data df ↔ nonDegenerate r = true)) ∧
    clean_data [recDropped] = [] ∧
    clean_data [recKept] = [recKept] := by
  refine ⟨?_, ?_, by decide, by decide⟩
  · intro r
    rcases r with ⟨cm, co, p, y, m, t, q, u, i, us⟩
    rcases q with _ | q <;> rcases i with _ | i <;> rcases us with _ | us <;>
      simp [nonDegenerate, nullOrZero, and_assoc]
  · intro df r hr
    simp [mem_clean_data, hr]

/-! ### C8: unit-default normalization -/

/-- C8: in cleaning, a unit that is null, blank or whitespace-only after
stripping, or lowercases to `nan` is mapped to `N/A`, and every other unit
value is left unchanged; moreover every record of the cleaned dataset is a
unit-normalized input record, so the rule is applied to every surviving
record. -/
theorem C8_unit_default :
    (∀ u : Option Str,
      ((u = none ∨ stripStr (u.getD []) = [] ∨
          toLowerStr (u.getD []) = "nan".data) →
        normalizeUnit u = some "N/A".data) ∧
      (u ≠ none → stripStr (u.getD []) ≠ [] →
        toLowerStr (u.getD []) ≠ "nan".data → normalizeUnit u = u)) ∧
    (∀ (df : List RawRecord) (r : RawRecord), r ∈ clean_data df →
      ∃ r₀, r₀ ∈ df ∧ r = normalizeRecord r₀) := by
  constructor
  · intro u
    constructor
    · rintro (rfl | h | h)
      · rfl
      · cases u with
        | none => rfl
        | some s => simp_all [normalizeUnit]
      · cases u with
        | none => rfl
        | some s =>
          simp only [Option.getD_some] at h
          simp [normalizeUnit, h]
    · intro h1 h2 h3
      cases u with
      | none => exact absurd rfl h1
      | some s =>
        simp only [Option.getD_some] at h2 h3
        simp [normalizeUnit, h2, h3]
  · intro df r hr
    obtain ⟨hm, -⟩ := mem_clean_data.mp hr
    obtain ⟨r₀, hr₀, rfl⟩ := List.mem_map.mp hm
    exact ⟨r₀, List.mem_dedup.mp hr₀, rfl⟩

/-- Witness for C3: the membership equivalence applied to the concrete
kept record. -/
theorem C3_degeneracy_filter_witness :
    (recKept ∈ clean_data [recKept] ↔ nonDegenerate recKept = true) :=
  C3_degeneracy_filter.2.1 [recKept] recKept (by decide)

/-- Witness for C8: the normalization rule applied to a whitespace-only
unit and to a lowercase-nan unit, and the surviving-record property applied
to a concrete dataset. -/
theorem C8_unit_default_witness :
    normalizeUnit (some " ".data) = some "N/A".data ∧
    normalizeUnit (some "NaN".data) = some "N/A".data ∧
    (∃ r₀, r₀ ∈ [recQtyOne] ∧ recQtyOne = normalizeRecord r₀) :=
  ⟨(C8_unit_default.1 (some " ".data)).1 (Or.inr (Or.inl (by decide))),
   (C8_unit_default.1 (some "NaN".data)).1 (Or.inr (Or.inr (by decide))),
   C8_unit_default.2 [recQtyOne] recQtyOne (by decide)⟩

/-! ### C1: crawl termination -/

/-- The crawl loop runs to the first month iteration at which the minimum
of the two failure counters reaches the threshold, and stops there. -/
lemma crawlLoop_first_crossing (e f : Int → Nat → Bool → Bool) :
    ∀ (n : Nat) (s : CrawlState) (fuel : Nat),
      (∀ k, k < n →
        min (crawlIter e f k s).impFailures (crawlIter e f k s).expFailures <
          max_consecutive_failures) →
      max_consecutive_failures ≤
        min (crawlIter e f n s).impFailures (crawlIter e f n s).expFailures →
      n ≤ fuel →
      crawlLoop e f fuel s = crawlIter e f n s := by
  intro n
  induction n with
  | zero =>
    intro s fuel _ hstop _
    simp only [crawlIter] at hstop
    cases fuel with
    | zero => rfl
    | succ fuel =>
      simp only [crawlLoop]
      rw [if_neg (not_lt.mpr hstop)]
      rfl
  | succ n ih =>
    intro s fuel hrun hstop hfuel
    cases fuel with
    | zero => omega
    | succ fuel =>
      have h0 := hrun 0 (by omega)
      simp only [crawlIter] at h0
      simp only [crawlLoop, if_pos h0]
      exact ih (monthStep e f s) fuel
        (fun k hk => hrun (k + 1) (by omega)) hstop (by omega)

/-- C1: the crawler loop exits exactly at the first month iteration where
`min(counter[import], counter[export])` reaches the threshold of 5; with a
fetch source failing on every request and no pre-existing artifacts, the
loop from a fresh start runs exactly 5 month iterations and terminates,
having issued exactly 5 failing requests per series (10 in total) and
holding both counters at 5. -/
theorem C1_crawl_termination :
    (∀ (e f : Int → Nat → Bool → Bool) (s : CrawlState) (n fuel : Nat),
      (∀ k, k < n →
        min (crawlIter e f k s).impFailures (crawlIter e f k s).expFailures <
          max_consecutive_failures) →
      max_consecutive_failures ≤
        min (crawlIter e f n s).impFailures (crawlIter e f n s).expFailures →
      n ≤ fuel →
      crawlLoop e f fuel s = crawlIter e f n s) ∧
    (∀ fuel : Nat,
      crawlLoop oracleNever oracleNever (5 + fuel) startState =
        crawlIter oracleNever oracleNever 5 startState ∧
      (crawlLoop oracleNever oracleNever (5 + fuel) startState).impRequests = 5 ∧
      (crawlLoop oracleNever oracleNever (5 + fuel) startState).expRequests = 5 ∧
      (crawlLoop oracleNever oracleNever (5 + fuel) startState).impFailures = 5 ∧
      (crawlLoop oracleNever oracleNever (5 + fuel) startState).expFailures = 5) := by
  refine ⟨fun e f s n fuel => crawlLoop_first_crossing e f n s fuel, fun fuel => ?_⟩
  have h := crawlLoop_first_crossing oracleNever oracleNever 5 startState
    (5 + fuel) (by decide) (by decide) (by omega)
  rw [h]
  exact ⟨rfl, by decide, by decide, by decide, by decide⟩

/-- Witness for C1: the first-crossing characterization and the exact
attempt counts, at fuel 6 and 5 respectively. -/
theorem C1_crawl_termination_witness :
    crawlLoop oracleNever oracleNever 6 startState =
      crawlIter oracleNever oracleNever 5 startState ∧
    (crawlLoop oracleNever oracleNever 5 startState).impRequests = 5 ∧
    (crawlLoop oracleNever oracleNever 5 startState).expRequests = 5 :=
  ⟨C1_crawl_termination.1 oracleNever oracleNever startState 5 6
      (by decide) (by decide) (by omega),
   (C1_crawl_termination.2 0).2.1,
   (C1_crawl_termination.2 0).2.2.1⟩

/-! ### C4: skip-reset semantics and idempotence -/

/-- Under the all-artifacts-exist oracle, a month iteration zeroes both
counters, issues no request, and moves the cursor back one month. -/
lemma monthStep_oracleAlways (f : Int → Nat → Bool → Bool) (s : CrawlState) :
    monthStep oracleAlways f s =
      { s with impFailures := 0, expFailures := 0,
               year := (prevMonth s.year s.month).1,
               month := (prevMonth s.year s.month).2 } := by
  rcases s with ⟨a, b, y, m, c, d⟩
  simp [monthStep, seriesStep, oracleAlways]

/-- C4: an existing artifact makes the series step reset that series'
counter to 0 — from any prior counter value — without touching the request
counts; a crawl in which every visited artifact exists keeps both counters
at zero and issues zero requests through every iteration, and (from fresh
counters) the guarded loop just keeps iterating; pre-existing month M
followed by two failing months yields counters 0, then 1, then 2. -/
theorem C4_skip_reset :
    (∀ (e f : Int → Nat → Bool → Bool) (s : CrawlState),
      (e s.year s.month true = true →
        seriesStep e f true s = { s with impFailures := 0 }) ∧
      (e s.year s.month false = true →
        seriesStep e f false s = { s with expFailures := 0 })) ∧
    (∀ (f : Int → Nat → Bool → Bool) (k : Nat) (s : CrawlState),
      s.impFailures = 0 → s.expFailures = 0 →
      (crawlIter oracleAlways f k s).impFailures = 0 ∧
      (crawlIter oracleAlways f k s).expFailures = 0 ∧
      (crawlIter oracleAlways f k s).impRequests = s.impRequests ∧
      (crawlIter oracleAlways f k s).expRequests = s.expRequests) ∧
    (∀ (f : Int → Nat → Bool → Bool) (fuel : Nat) (s : CrawlState),
      s.impFailures = 0 → s.expFailures = 0 →
      crawlLoop oracleAlways f fuel s = crawlIter oracleAlways f fuel s) ∧
    ((crawlIter existsAtStart oracleNever 1 startState).impFailures = 0 ∧
     (crawlIter existsAtStart oracleNever 1 startState).expFailures = 0 ∧
     (crawlIter existsAtStart oracleNever 1 startState).impRequests = 0 ∧
     (crawlIter existsAtStart oracleNever 1 startState).expRequests = 0 ∧
     (crawlIter existsAtStart oracleNever 2 startState).impFailures = 1 ∧
     (crawlIter existsAtStart oracleNever 2 startState).expFailures = 1 ∧
     (crawlIter existsAtStart oracleNever 3 startState).impFailures = 2 ∧
     (crawlIter existsAtStart oracleNever 3 startState).expFailures = 2) := by
  refine ⟨?_, ?_, ?_, by decide⟩
  · intro e f s
    constructor
    · intro h
      simp [seriesStep, h]
    · intro h
      simp [seriesStep, h]
  · intro f k
    induction k with
    | zero =>
      intro s h1 h2
      exact ⟨h1, h2, rfl, rfl⟩
    | succ k ih =>
      intro s h1 h2
      simp only [crawlIter]
      rw [monthStep_oracleAlways]
      simpa using ih _ rfl rfl
  · intro f fuel
    induction fuel with
    | zero =>
      intro s _ _
      rfl
    | succ fuel ih =>
      intro s h1 h2
      simp only [crawlLoop, crawlIter]
      rw [if_pos (by rw [h1, h2]; decide)]
      rw [monthStep_oracleAlways]
      exact ih _ rfl rfl

/-- Witness for C4: the skip-reset step applied at a concrete state with a
nonzero counter, the zero-requests invariant at three iterations from the
fresh start, and the loop-unfolding equality at fuel 2. -/
theorem C4_skip_reset_witness :
    seriesStep oracleAlways oracleNever true ⟨3, 1, 2025, 9, 0, 0⟩ =
      { (⟨3, 1, 2025, 9, 0, 0⟩ : CrawlState) with impFailures := 0 } ∧
    (crawlIter oracleAlways oracleNever 3 startState).impRequests =
      startState.impRequests ∧
    crawlLoop oracleAlways oracleNever 2 startState =
      crawlIter oracleAlways oracleNever 2 startState :=
  ⟨(C4_skip_reset.1 oracleAlways oracleNever ⟨3, 1, 2025, 9, 0, 0⟩).1 rfl,
   (C4_skip_reset.2.1 oracleNever 3 startState rfl rfl).2.2.1,
   C4_skip_reset.2.2.1 oracleNever 2 startState rfl rfl⟩

/-! ### C10: totality of parse_xls_file -/

/-- C10: spreadsheet parsing is total — it is a function returning a (possibly
empty) record list on every input, never an error — and each degenerate case
yields the empty result: an unreadable blob (the excel read raises with
every engine and the handler returns an empty frame), a sheet with fewer
than two physical rows, and a sheet whose filtered data rows are all
invalid. -/
theorem C10_parse_total :
    (∀ (y : Int) (m : Nat) (dt : Str), parse_xls_file none y m dt = []) ∧
    (∀ (sheet : Sheet) (y : Int) (m : Nat) (dt : Str), sheet.length < 2 →
      parse_xls_file (some sheet) y m dt = []) ∧
    (∀ (sheet : Sheet) (y : Int) (m : Nat) (dt : Str) (ci : Nat),
      (find_column_indices (sheet.getD 1 [])).commodity = some ci →
      (sheet.drop 2).filter (fun r => validCommodity (r.getD ci none)) = [] →
      parse_xls_file (some sheet) y m dt = []) := by
  refine ⟨fun _ _ _ => rfl, ?_, ?_⟩
  · intro sheet y m dt h
    simp [parse_xls_file, if_pos h]
  · intro sheet y m dt ci hci hfil
    simp only [parse_xls_file]
    split
    · rfl
    · rw [hci]
      cases hco : (find_column_indices (sheet.getD 1 [])).country with
      | none => rfl
      | some cj =>
        simp only
        rw [hfil]
        simp

/-- Witness for C10: a short sheet and an all-invalid-rows sheet both
parse to the empty result. -/
theorem C10_parse_total_witness :
    parse_xls_file (some [[]]) 2021 11 "import".data = [] ∧
    parse_xls_file (some allInvalidSheet) 2021 11 "import".data = [] :=
  ⟨C10_parse_total.2.1 [[]] 2021 11 "import".data (by decide),
   C10_parse_total.2.2 allInvalidSheet 2021 11 "import".data 0
     (by decide) (by decide)⟩

/-! ### C7: permissive row normalization -/

/-- A numeric extraction over a missing cell is null. -/
lemma safe_numeric_extract_missing (i : Nat) (r : Row)
    (hd : r.getD i none = none) : safe_numeric_extract (some i) r = none := by
  simp only [safe_numeric_extract]
  rw [hd]

/-- A numeric extraction over unparseable cell text is null. -/
lemma safe_numeric_extract_unparseable (i : Nat) (r : Row) (s : Str)
    (hc : r.getD i none = some s) (hp : parseIntStr s = none) :
    safe_numeric_extract (some i) r = none := by
  simp only [safe_numeric_extract]
  rw [hc]
  exact hp

/-- A string extraction over a missing cell yields the field default. -/
lemma safe_str_extract_missing (i : Nat) (dflt : Str) (r : Row)
    (hd : r.getD i none = none) : safe_str_extract (some i) dflt r = dflt := by
  simp only [safe_str_extract]
  rw [hd]
  rfl

/-- C7: for every data row, a numeric cell that does not parse as a number
yields null for that field while the row still produces a record (the rows
of a sheet are selected by the commodity filter alone, so the record count
never depends on numeric content); an unmapped numeric column yields null
on every row; and a mapped column index at or beyond the row's physical
width reads as a missing cell, yielding null for numeric fields and the
field default for string fields. -/
theorem C7_permissive_rows :
    (∀ (ci : Nat) (ix : ColIndices) (y : Int) (m : Nat) (st : Str) (r : Row)
        (i : Nat) (s : Str),
      ix.qty = some i → r.getD i none = some s → parseIntStr s = none →
      (rowToRecord ci ix y m st r).quantity = none) ∧
    (∀ (ci : Nat) (ix : ColIndices) (y : Int) (m : Nat) (st : Str) (r : Row)
        (i : Nat) (s : Str),
      ix.inr = some i → r.getD i none = some s → parseIntStr s = none →
      (rowToRecord ci ix y m st r).inrValue = none) ∧
    (∀ (ci : Nat) (ix : ColIndices) (y : Int) (m : Nat) (st : Str) (r : Row)
        (i : Nat) (s : Str),
      ix.usd = some i → r.getD i none = some s → parseIntStr s = none →
      (rowToRecord ci ix y m st r).usdValue = none) ∧
    (∀ (ci : Nat) (ix : ColIndices) (y : Int) (m : Nat) (st : Str) (r : Row),
      ix.qty = none → (rowToRecord ci ix y m st r).quantity = none) ∧
    (∀ (ci : Nat) (ix : ColIndices) (y : Int) (m : Nat) (st : Str) (r : Row),
      ix.inr = none → (rowToRecord ci ix y m st r).inrValue = none) ∧
    (∀ (ci : Nat) (ix : ColIndices) (y : Int) (m : Nat) (st : Str) (r : Row),
      ix.usd = none → (rowToRecord ci ix y m st r).usdValue = none) ∧
    (∀ (ci : Nat) (ix : ColIndices) (y : Int) (m : Nat) (st : Str) (r : Row)
        (i : Nat),
      r.length ≤ i →
      (ix.qty = some i → (rowToRecord ci ix y m st r).quantity = none) ∧
      (ix.inr = some i → (rowToRecord ci ix y m st r).inrValue = none) ∧
      (ix.usd = some i → (rowToRecord ci ix y m st r).usdValue = none) ∧
      (ix.country = some i → (rowToRecord ci ix y m st r).country = []) ∧
      (ix.port = some i → (rowToRecord ci ix y m st r).port = []) ∧
      (ix.unit = some i →
        (rowToRecord ci ix y m st r).unit = some "N/A".data)) ∧
    (∀ (sheet : Sheet) (y : Int) (m : Nat) (dt : Str) (ci cj : Nat),
      (find_column_indices (sheet.getD 1 [])).commodity = some ci →
      (find_column_indices (sheet.getD 1 [])).country = some cj →
      2 ≤ sheet.length →
      (parse_xls_file (some sheet) y m dt).length =
        ((sheet.drop 2).filter (fun r => validCommodity (r.getD ci none))).length) := by
  refine ⟨?_, ?_, ?_, ?_, ?_, ?_, ?_, ?_⟩
  · intro ci ix y m st r i s hix hc hp
    simp only [rowToRecord, hix]
    exact safe_numeric_extract_unparseable i r s hc hp
  · intro ci ix y m st r i s hix hc hp
    simp only [rowToRecord, hix]
    exact safe_numeric_extract_unparseable i r s hc hp
  · intro ci ix y m st r i s hix hc hp
    simp only [rowToRecord, hix]
    exact safe_numeric_extract_unparseable i r s hc hp
  · intro ci ix y m st r hix
    simp [rowToRecord, safe_numeric_extract, hix]
  · intro ci ix y m st r hix
    simp [rowToRecord, safe_numeric_extract, hix]
  · intro ci ix y m st r hix
    simp [rowToRecord, safe_numeric_extract, hix]
  · intro ci ix y m st r i hlen
    have hd : r.getD i none = none := List.getD_eq_default _ _ hlen
    refine ⟨?_, ?_, ?_, ?_, ?_, ?_⟩ <;> intro hix <;>
      simp only [rowToRecord, hix]
    · exact safe_numeric_extract_missing i r hd
    · exact safe_numeric_extract_missing i r hd
    · exact safe_numeric_extract_missing i r hd
    · exact safe_str_extract_missing i _ r hd
    · exact safe_str_extract_missing i _ r hd
    · rw [safe_str_extract_missing i _ r hd]
  · intro sheet y m dt ci cj hci hco hlen
    simp only [parse_xls_file]
    rw [if_neg (by omega), hci, hco]
    simp only
    split
    · rename_i h
      rw [List.isEmpty_iff.mp h]
      simp
    · split
      · rename_i h
        rw [List.isEmpty_iff.mp h]
        rfl
      · simp

/-- Witness for C7: the out-of-range and unparseable cases exercised on a
concrete column map and row: the qty cell `abc` parses to null, the INR
column is unmapped, and the unit column lies beyond the row's width. -/
theorem C7_permissive_rows_witness :
    (rowToRecord 0 demoIx 2021 11 "Import".data demoRow).quantity = none ∧
    (rowToRecord 0 demoIx 2021 11 "Import".data demoRow).inrValue = none ∧
    (rowToRecord 0 demoIx 2021 11 "Import".data demoRow).unit =
      some "N/A".data ∧
    (parse_xls_file (some allInvalidSheet) 2021 11 "import".data).length =
      ((allInvalidSheet.drop 2).filter
        (fun r => validCommodity (r.getD 0 none))).length :=
  ⟨C7_permissive_rows.1 0 demoIx 2021 11 "Import".data demoRow 2 "abc".data
      rfl (by decide) (by decide),
   C7_permissive_rows.2.2.2.2.1 0 demoIx 2021 11 "Import".data demoRow rfl,
   ((C7_permissive_rows.2.2.2.2.2.2.1 0 demoIx 2021 11 "Import".data demoRow 9
      (by decide)).2.2.2.2.2) rfl,
   C7_permissive_rows.2.2.2.2.2.2.2 allInvalidSheet 2021 11 "import".data 0 1
      (by decide) (by decide) (by decide)⟩


/-! ### C2: schema detection -/

/-- Every field starts unassigned. -/
lemma getField_emptyIndices (f : TField) : getField emptyIndices f = none := by
  cases f <;> rfl

set_option maxHeartbeats 1000000 in
/-- Processing one header cell either leaves a field untouched, or assigns
it — previously unassigned — to the cell's index, the cell satisfying that
field's match rule. -/
lemma updateIndices_cases (acc : ColIndices) (idx : Nat) (c : Cell) :
    ∀ f : TField,
      getField (updateIndices acc idx c) f = getField acc f ∨
      (getField acc f = none ∧
        getField (updateIndices acc idx c) f = some idx ∧
        cellMatches f c = true) := by
  cases c with
  | none => intro f; exact Or.inl rfl
  | some v =>
    simp only [updateIndices]
    split_ifs with h1 h2 h3 h4 h5 h6 h7 h8 h9 <;>
      intro f <;> cases f <;>
      simp_all only [getField, cellMatches, fieldRule, Bool.and_eq_true,
        beq_iff_eq, Bool.or_eq_true, and_false, false_and, and_true, true_and,
        or_false, false_or, and_self, or_true, true_or, reduceCtorEq,
        not_false_eq_true, not_true_eq_false]

/-- Processing one header cell never changes an already-assigned field. -/
lemma updateIndices_preserve (acc : ColIndices) (idx : Nat) (c : Cell)
    (f : TField) (i : Nat) (h : getField acc f = some i) :
    getField (updateIndices acc idx c) f = some i := by
  rcases updateIndices_cases acc idx c f with he | ⟨h0, -, -⟩
  · rw [he, h]
  · rw [h0] at h
    exact Option.noConfusion h

/-- Scanning further header cells never changes an already-assigned field. -/
lemma scanHeader_preserve : ∀ (l : List Cell) (idx : Nat) (acc : ColIndices)
    (f : TField) (i : Nat), getField acc f = some i →
    getField (scanHeader idx acc l) f = some i := by
  intro l
  induction l with
  | nil => intro idx acc f i h; exact h
  | cons c rest ih =>
    intro idx acc f i h
    exact ih (idx + 1) _ f i (updateIndices_preserve acc idx c f i h)

/-- If processing one cell assigns a previously-unassigned field, the
assigned index is that cell's index and the cell satisfies the field's
match rule. -/
lemma updateIndices_assign (acc : ColIndices) (idx : Nat) (c : Cell)
    (f : TField) (j : Nat) (h0 : getField acc f = none)
    (h : getField (updateIndices acc idx c) f = some j) :
    j = idx ∧ cellMatches f c = true := by
  rcases updateIndices_cases acc idx c f with he | ⟨-, ha, hm⟩
  · rw [he, h0] at h
    exact Option.noConfusion h
  · rw [ha] at h
    injection h with h2
    exact ⟨h2.symm, hm⟩

/-- If the scan assigns a previously-unassigned field, the assigned index
points at a cell of the scanned list that satisfies the field's rule. -/
lemma scanHeader_sound : ∀ (l : List Cell) (idx : Nat) (acc : ColIndices)
    (f : TField) (j : Nat), getField acc f = none →
    getField (scanHeader idx acc l) f = some j →
    ∃ k, k < l.length ∧ j = idx + k ∧ cellMatches f (l.getD k none) = true := by
  intro l
  induction l with
  | nil =>
    intro idx acc f j h0 h
    simp only [scanHeader] at h
    rw [h0] at h
    exact Option.noConfusion h
  | cons c rest ih =>
    intro idx acc f j h0 h
    simp only [scanHeader] at h
    by_cases h1 : getField (updateIndices acc idx c) f = none
    · obtain ⟨k, hk, hj, hm⟩ := ih (idx + 1) _ f j h1 h
      exact ⟨k + 1, by simpa using hk, by omega, by simpa using hm⟩
    · obtain ⟨i, hi⟩ := Option.ne_none_iff_exists'.mp h1
      obtain ⟨heq, hm⟩ := updateIndices_assign acc idx c f i h0 hi
      have hp := scanHeader_preserve rest (idx + 1) _ f i hi
      rw [hp] at h
      injection h with h2
      exact ⟨0, by simp, by omega, by simpa using hm⟩

/-- Appending one cell to the header row re-runs the scan and then
processes the new cell at the next index. -/
lemma scanHeader_append : ∀ (l : List Cell) (idx : Nat) (acc : ColIndices)
    (c : Cell),
    scanHeader idx acc (l ++ [c]) =
      updateIndices (scanHeader idx acc l) (idx + l.length) c := by
  intro l
  induction l with
  | nil => intro idx acc c; simp [scanHeader]
  | cons d rest ih =>
    intro idx acc c
    simp only [List.cons_append, scanHeader, List.length_cons, List.append_eq]
    have harith : idx + (rest.length + 1) = (idx + 1) + rest.length := by omega
    rw [harith, ih]

/-- C2 (amended): the detector scans header cells left-to-right,
dispatching each cell to at most one field; once a field is assigned it is
never reassigned (extending the header cannot change it), and any assigned
index's cell does satisfy that field's match rule — though it need not be
the leftmost such cell when an earlier-ordered rule claimed an earlier
multiply-matching cell.  The spec's example header maps commodity→1,
country→2, qty→3, unit→4, inr→5, usd→6, and a header resolving no
commodity or no country column yields an empty extraction result. -/
theorem C2_schema_detection_amended :
    (∀ (row : List Cell) (c : Cell) (f : TField) (i : Nat),
      getField (find_column_indices row) f = some i →
      getField (find_column_indices (row ++ [c])) f = some i) ∧
    (∀ (row : List Cell) (f : TField) (i : Nat),
      getField (find_column_indices row) f = some i →
      i < row.length ∧ cellMatches f (row.getD i none) = true) ∧
    find_column_indices demoHeader =
      ⟨some 1, some 2, none, some 4, some 3, some 5, some 6⟩ ∧
    (∀ (sheet : Sheet) (y : Int) (m : Nat) (dt : Str),
      ((find_column_indices (sheet.getD 1 [])).commodity = none ∨
       (find_column_indices (sheet.getD 1 [])).country = none) →
      parse_xls_file (some sheet) y m dt = []) := by
  refine ⟨?_, ?_, by decide, ?_⟩
  · intro row c f i h
    unfold find_column_indices at h ⊢
    rw [scanHeader_append]
    exact updateIndices_preserve _ _ c f i h
  · intro row f i h
    obtain ⟨k, hk, hj, hm⟩ :=
      scanHeader_sound row 0 emptyIndices f i (getField_emptyIndices f) h
    have hik : i = k := by omega
    subst hik
    exact ⟨hk, hm⟩
  · intro sheet y m dt h
    simp only [parse_xls_file]
    split
    · rfl
    · rcases h with h | h
      · rw [h]
      · cases hc : (find_column_indices (sheet.getD 1 [])).commodity with
        | none => rfl
        | some ci => rw [h]

/-- Counterexample for C2: on the clash header, the country rule is
satisfied by the cell at column 0 (its text contains `COUNTRY`), yet the
detector assigns country column 1, because the elif chain dispatched cell 0
to the commodity field; so the detector does not assign each field the
first column whose cell satisfies that field's rule. -/
theorem C2_schema_detection_counterexample :
    (find_column_indices clashHeader).country = some 1 ∧
    specFirstMatch .country clashHeader = some 0 ∧
    cellMatches .country (clashHeader.getD 0 none) = true := by decide

/-- Witness for C2 (amended): stability under extending the spec's example
header, soundness of the commodity assignment on it, and the
empty-extraction behaviour on a sheet without a country column. -/
theorem C2_schema_detection_witness :
    getField (find_column_indices
      (demoHeader ++ [some "COMMODITY AGAIN".data])) .commodity = some 1 ∧
    (1 < demoHeader.length ∧
      cellMatches .commodity (demoHeader.getD 1 none) = true) ∧
    parse_xls_file (some noCountrySheet) 2021 11 "import".data = [] :=
  ⟨C2_schema_detection_amended.1 demoHeader (some "COMMODITY AGAIN".data)
      .commodity 1 (by decide),
   C2_schema_detection_amended.2.1 demoHeader .commodity 1 (by decide),
   C2_schema_detection_amended.2.2.2 noCountrySheet 2021 11 "import".data
      (Or.inr (by decide))⟩

/-! ### C6: invariants of the cleaned dataset -/

/-- Counting an image in a mapped list counts the preimages. -/
lemma count_map_eq_countP (f : RawRecord → RawRecord) (l : List RawRecord)
    (b : RawRecord) :
    (l.map f).count b = l.countP (fun a => f a == b) := by
  induction l with
  | nil => rfl
  | cons a t ih => simp [List.count_cons, List.countP_cons, ih]

/-- C6 (amended): the cleaned dataset is sorted ascending by the key
(commodity, country, port, year, month, series type); deduplication runs
before unit normalization, so each output record occurs at most as many
times as there are distinct input records normalizing to it — exact input
duplicates are collapsed to one, but records that become identical only
through unit normalization may survive as equal rows. -/
theorem C6_cleaned_invariants_amended :
    (∀ df : List RawRecord, List.Sorted keyLe (clean_data df)) ∧
    (∀ (df : List RawRecord) (r : RawRecord),
      (clean_data df).count r ≤
        df.dedup.countP (fun x => normalizeRecord x == r)) ∧
    (∀ df : List RawRecord, df.dedup.Nodup) := by
  refine ⟨?_, ?_, fun df => List.nodup_dedup df⟩
  · intro df
    exact List.sorted_insertionSort keyLe _
  · intro df r
    calc (clean_data df).count r
        = ((df.dedup.map normalizeRecord).filter nonDegenerate).count r :=
          (List.perm_insertionSort keyLe _).count_eq r
      _ ≤ (df.dedup.map normalizeRecord).count r :=
          (List.filter_sublist _).count_le r
      _ = df.dedup.countP (fun x => normalizeRecord x == r) :=
          count_map_eq_countP normalizeRecord df.dedup r

/-- Counterexample for C6: two distinct non-degenerate records differing
only in the spelling of a blank unit survive deduplication, are unified by
the later unit normalization, and appear as two identical rows of the
cleaned dataset. -/
theorem C6_cleaned_invariants_counterexample :
    clean_data [recUnitBlank, recUnitNan] = [recUnitNA, recUnitNA] ∧
    ¬ List.Pairwise (fun a b : RawRecord => a ≠ b)
        (clean_data [recUnitBlank, recUnitNan]) := by
  exact ⟨by decide, by decide⟩

/-- Witness for C6 (amended): the sortedness and multiplicity bounds at a
concrete dataset. -/
theorem C6_cleaned_invariants_witness :
    List.Sorted keyLe (clean_data [recQtyTwo, recQtyOne]) ∧
    (clean_data [recQtyTwo, recQtyOne]).count recQtyOne ≤
      ([recQtyTwo, recQtyOne] : List RawRecord).dedup.countP
        (fun x => normalizeRecord x == recQtyOne) :=
  ⟨C6_cleaned_invariants_amended.1 [recQtyTwo, recQtyOne],
   C6_cleaned_invariants_amended.2.1 [recQtyTwo, recQtyOne] recQtyOne⟩

/-! ### C9: batch-order independence -/

/-- C9 (amended): permuting the per-archive batches leaves the cleaned
dataset unchanged as a multiset — every record occurs with the same
multiplicity — though rows sharing the entire sort key may appear in a
different relative order. -/
theorem C9_batch_order_amended :
    ∀ (bs₁ bs₂ : List (List RawRecord)), bs₁.Perm bs₂ →
      (clean_data bs₁.flatten).Perm (clean_data bs₂.flatten) := by
  intro bs₁ bs₂ h
  have h3 := ((h.flatten.dedup).map normalizeRecord).filter nonDegenerate
  exact ((List.perm_insertionSort keyLe _).trans h3).trans
    (List.perm_insertionSort keyLe _).symm

/-- Counterexample for C9: two singleton batches holding distinct records
with the same sort key produce, under the two batch orders, cleaned
datasets that are not equal (the rows appear in opposite orders). -/
theorem C9_batch_order_counterexample :
    ([[recQtyOne], [recQtyTwo]] : List (List RawRecord)).Perm
      [[recQtyTwo], [recQtyOne]] ∧
    clean_data ([[recQtyOne], [recQtyTwo]] : List (List RawRecord)).flatten ≠
      clean_data ([[recQtyTwo], [recQtyOne]] : List (List RawRecord)).flatten := by
  exact ⟨by decide, by decide⟩

/-- Witness for C9 (amended): the multiset equality applied to the two
concrete batch orders. -/
theorem C9_batch_order_witness :
    (clean_data ([[recQtyOne], [recQtyTwo]] : List (List RawRecord)).flatten).Perm
      (clean_data ([[recQtyTwo], [recQtyOne]] : List (List RawRecord)).flatten) :=
  C9_batch_order_amended [[recQtyOne], [recQtyTwo]] [[recQtyTwo], [recQtyOne]]
    (by decide)
